import Mathlib

/-!
# Verification of the lucaregnskap scraper (src/lucaregnskap.py)

Shallow embedding of the scraper's data model and operations:

* HTML documents are embedded as trees of `Node` (text nodes and elements
  with a tag, an attribute list and children), the form BeautifulSoup's
  `html.parser` produces; `parse_konto` is translated over this tree.
* The fetch layer (`scrape`, the `asyncio.gather` fan-in of
  `scrape_queries`) is embedded with explicit HTTP responses and the
  `Except` monad for raised exceptions.
* The store layer (`get_accounts`, the artifact file) is embedded with an
  explicit file-system state (`FileState`) threaded through the calls, and
  the JSON serialization (`json.dumps` with `ensure_ascii=False, indent=4`)
  and deserialization (`json.loads`, specialized to the catalog shape the
  artifact holds) are implemented over character lists.
-/

/-- A parsed HTML node: either a text node, or an element with a tag name,
an attribute list and a list of children (the shape BeautifulSoup's
`html.parser` builds). -/
inductive Node where
  | text : String → Node
  | elem : String → List (String × String) → List Node → Node
deriving Repr

/-- A parsed document: the top-level nodes of the page, in order. -/
abbrev Doc := List Node

mutual
/-- BeautifulSoup's `.text` / `get_text()`: the concatenation of every
text node in the subtree, in document order. -/
def nodeText : Node → String
  | .text s => s
  | .elem _ _ cs => nodesText cs

/-- `.text` over a list of sibling nodes, in order. -/
def nodesText : List Node → String
  | [] => ""
  | n :: ns => nodeText n ++ nodesText ns
end

mutual
/-- BeautifulSoup's `find_all(tag)`: every element of the given tag in the
subtree (the node itself included), in document (preorder) order. -/
def findAll (tag : String) : Node → List Node
  | .text _ => []
  | .elem t a cs => (if t = tag then [Node.elem t a cs] else []) ++ findAllList tag cs

/-- `find_all(tag)` over a list of sibling subtrees, in order. -/
def findAllList (tag : String) : List Node → List Node
  | [] => []
  | n :: ns => findAll tag n ++ findAllList tag ns
end

/-- Worker for Python's `str.split()`: scan the characters, accumulating
the current word reversed, and emit a word at every whitespace run. -/
def splitWSAux : List Char → List Char → List String
  | [], acc => if acc.isEmpty then [] else [⟨acc.reverse⟩]
  | c :: rest, acc =>
    if c.isWhitespace then
      if acc.isEmpty then splitWSAux rest []
      else ⟨acc.reverse⟩ :: splitWSAux rest []
    else splitWSAux rest (c :: acc)

/-- Python's `str.split()` with no argument: split on runs of whitespace,
discarding empty pieces (BeautifulSoup splits the `class` attribute this
way to build the multi-valued class list). -/
def pySplitWS (s : String) : List String :=
  splitWSAux s.data []

/-- BeautifulSoup's attribute filter `{'class': cl}`: the element's class
attribute, split on whitespace, contains `cl`. -/
def hasClass (attrs : List (String × String)) (cl : String) : Bool :=
  match attrs.lookup "class" with
  | some v => (pySplitWS v).contains cl
  | none => false

mutual
/-- BeautifulSoup's `find(...)`: the first node in document (preorder)
order satisfying the predicate on tag and attributes, or `None`. -/
def findElem (p : String → List (String × String) → Bool) : Node → Option Node
  | .text _ => none
  | .elem t a cs =>
    if p t a then some (Node.elem t a cs) else findElemList p cs

/-- `find(...)` over a list of sibling subtrees, in order. -/
def findElemList (p : String → List (String × String) → Bool) : List Node → Option Node
  | [] => none
  | n :: ns =>
    match findElem p n with
    | some r => some r
    | none => findElemList p ns
end

/-- Python's `str(x)` on the value of `attrs.get('title')`: a missing
attribute is `None` and formats as the literal string "None". -/
def pyShowOpt : Option String → String
  | some a => a
  | none => "None"

/-- The replacement text `f"{link.text} ({link.attrs.get('title')})"`
substituted for a hyperlink element. -/
def linkText (link : Node) (attrs : List (String × String)) : String :=
  nodeText link ++ " (" ++ pyShowOpt (attrs.lookup "title") ++ ")"

mutual
/-- The loop `for link in description.find_all('a'): link.replace_with(...)`:
every hyperlink element in the subtree is replaced in place by the text
fragment built from its visible text and its title attribute. -/
def replaceLinks : Node → Node
  | .text s => .text s
  | .elem t a cs =>
    if t = "a" then .text (linkText (Node.elem t a cs) a)
    else .elem t a (replaceLinksList cs)

/-- `replaceLinks` over a list of sibling subtrees. -/
def replaceLinksList : List Node → List Node
  | [] => []
  | n :: ns => replaceLinks n :: replaceLinksList ns
end

/-- Python's `str.replace(pat, repl)` over character lists: replace every
non-overlapping occurrence of `pat`, scanning left to right.  The fuel
argument only bounds the number of scanning steps; every step consumes at
least one character, so the input length is always enough fuel. -/
def pyReplaceAux (pat repl : List Char) : Nat → List Char → List Char
  | _, [] => []
  | 0, c :: rest => c :: rest
  | fuel + 1, c :: rest =>
    if pat ≠ [] ∧ pat.isPrefixOf (c :: rest) then
      repl ++ pyReplaceAux pat repl fuel ((c :: rest).drop pat.length)
    else
      c :: pyReplaceAux pat repl fuel rest

/-- `str.replace` with the fuel instantiated. -/
def pyReplace (pat repl s : List Char) : List Char :=
  pyReplaceAux pat repl s.length s

/-- `str.replace` on strings. -/
def pyReplaceStr (s pat repl : String) : String :=
  ⟨pyReplace pat.data repl.data s.data⟩

/-- The whitespace characters Python's `str.strip()` removes (the ASCII
fragment of Python's definition of whitespace). -/
def isPyWS (c : Char) : Bool :=
  c = ' ' || c = '\t' || c = '\n' || c = '\x0d' || c = '\x0b' || c = '\x0c'

/-- Python's `str.strip()`: drop whitespace from both ends. -/
def pyStrip (s : String) : String :=
  ⟨(s.data.dropWhile isPyWS).rdropWhile isPyWS⟩

/-- The `Konto` dataclass: a single account. -/
structure Konto where
  id : String
  tittel : String
  beskrivelse : String
deriving DecidableEq, Repr

/-- The exceptions the script can raise. -/
inductive PyExc where
  /-- `open` on a file that does not exist. -/
  | fileNotFound : PyExc
  /-- `open` on a file the process may not read (not caught by
  `except FileNotFoundError`). -/
  | permissionDenied : PyExc
  /-- `raise Exception(f'[ERROR] Got status code: {...}')` in `scrape`. -/
  | statusCode : Nat → PyExc
  /-- `headers[0]` or `headers[1]` out of range in `parse_konto`. -/
  | indexError : PyExc
  /-- `.find_all` on the `None` returned by a failed `find`. -/
  | attributeError : PyExc
  /-- `json.loads` on text that is not a catalog document. -/
  | jsonDecodeError : PyExc
deriving DecidableEq, Repr

/-- `parse_konto(html)`: find the two h1 headings (the first stripped of
the "Konto: " prefix is the id, the second is the title), find the
description div, rewrite its hyperlinks in place, and return the account
with the flattened, stripped description.  A missing heading raises
IndexError and a missing description div raises AttributeError. -/
def parse_konto (soup : Doc) : Except PyExc Konto :=
  match findAllList "h1" soup with
  | [] => .error .indexError
  | [_] => .error .indexError
  | h0 :: h1 :: _ =>
    match findElemList (fun t a => t = "div" && hasClass a "account-description") soup with
    | none => .error .attributeError
    | some description =>
      .ok ⟨pyReplaceStr (nodeText h0) "Konto: " "", nodeText h1,
           pyStrip (nodeText (replaceLinks description))⟩

/-! ## The fetch layer -/

/-- One HTTP response: the status code and the page body.  The embedding
identifies a page's raw text with its parsed tree (turning the raw string
into the tree is BeautifulSoup's concern, outside the embedded code). -/
structure HttpResp where
  status : Nat
  body : Doc

/-- `scrape(url)`: status 200 yields the page content, status 404 yields
`None`, and any other status raises
`Exception(f'[ERROR] Got status code: {response.status}')`. -/
def scrape (r : HttpResp) : Except PyExc (Option Doc) :=
  if r.status = 200 then .ok (some r.body)
  else if r.status = 404 then .ok none
  else .error (.statusCode r.status)

/-- `asyncio.gather` over the scrape tasks: results are collected in input
order, and a raised exception propagates to the whole batch, so no
partial list of results is returned. -/
def gather : List HttpResp → Except PyExc (List (Option Doc))
  | [] => .ok []
  | r :: rs =>
    match scrape r with
    | .error e => .error e
    | .ok h =>
      match gather rs with
      | .error e => .error e
      | .ok t => .ok (h :: t)

/-! ## The catalog and its JSON artifact -/

/-- The in-memory account catalog: a Python dict from account id to the
pair (tittel, beskrivelse), kept as an association list in insertion
order. -/
abbrev Catalog := List (String × String × String)

/-- Inserting a key into a Python dict: an existing key keeps its position
and gets the new value, a new key is appended. -/
def pyDictInsert (d : List (String × α)) (k : String) (v : α) : List (String × α) :=
  if (d.lookup k).isSome then
    d.map (fun p => if p.1 = k then (k, v) else p)
  else
    d ++ [(k, v)]

/-- Building a Python dict from a sequence of key/value pairs (the dict
comprehension in `scrape_queries` and the object decoding in
`json.loads`): later values for the same key win. -/
def pyDict (l : List (String × α)) : List (String × α) :=
  l.foldl (fun d p => pyDictInsert d p.1 p.2) []

/-- The lower-case hexadecimal digit for a value below 16, as used by
`json.dumps` in `\uXXXX` escapes. -/
def hexDigitChar (n : Nat) : Char :=
  if n < 10 then Char.ofNat (48 + n) else Char.ofNat (87 + n)

/-- The value of a hexadecimal digit accepted by `json.loads`. -/
def hexVal (c : Char) : Option Nat :=
  if '0' ≤ c ∧ c ≤ '9' then some (c.toNat - 48)
  else if 'a' ≤ c ∧ c ≤ 'f' then some (c.toNat - 87)
  else if 'A' ≤ c ∧ c ≤ 'F' then some (c.toNat - 55)
  else none

/-- How `json.dumps(..., ensure_ascii=False)` renders one character inside
a string literal: backslash, double quote and the named control characters
get two-character escapes, the remaining control characters get `\u00XX`,
and everything else (non-ASCII included) is written as itself. -/
def escChar (c : Char) : List Char :=
  if c = '"' then ['\\', '"']
  else if c = '\\' then ['\\', '\\']
  else if c = '\n' then ['\\', 'n']
  else if c = '\t' then ['\\', 't']
  else if c = '\x0d' then ['\\', 'r']
  else if c = '\x08' then ['\\', 'b']
  else if c = '\x0c' then ['\\', 'f']
  else if c.toNat < 32 then
    ['\\', 'u', '0', '0', hexDigitChar (c.toNat / 16), hexDigitChar (c.toNat % 16)]
  else [c]

/-- `escChar` over a whole string body. -/
def escList : List Char → List Char
  | [] => []
  | c :: rest => escChar c ++ escList rest

/-- A JSON string literal for `s`: quote, escaped body, quote. -/
def jsonQuote (s : String) : List Char :=
  '"' :: escList s.data ++ ['"']

/-- One catalog entry as `json.dumps(..., ensure_ascii=False, indent=4)`
prints it inside the top-level object (keys and values are written as JSON
string literals). -/
def entryChars (e : String × String × String) : List Char :=
  "    ".data ++ jsonQuote e.1 ++
  ": \x7b\n        ".data ++ jsonQuote "tittel" ++ ": ".data ++ jsonQuote e.2.1 ++
  ",\n        ".data ++ jsonQuote "beskrivelse" ++ ": ".data ++ jsonQuote e.2.2 ++
  "\n    \x7d".data

/-- The entries of a nonempty catalog, separated by `,\n` and closed by
`\n}`, as `json.dumps(..., indent=4)` prints them. -/
def dumpEntries : Catalog → List Char
  | [] => []
  | [e] => entryChars e ++ "\n\x7d".data
  | e :: e2 :: es => entryChars e ++ ",\n".data ++ dumpEntries (e2 :: es)

/-- `json.dumps(json_data, ensure_ascii=False, indent=4)` for the catalog
object: `{}` for the empty catalog, otherwise the indented entry list. -/
def dumpsCatalog (cat : Catalog) : String :=
  match cat with
  | [] => "\x7b\x7d"
  | e :: es => ⟨"\x7b\n".data ++ dumpEntries (e :: es)⟩

/-- The whitespace `json.loads` skips between tokens. -/
def isJsonWS (c : Char) : Bool :=
  c = ' ' || c = '\t' || c = '\n' || c = '\x0d'

/-- Skip inter-token whitespace. -/
def skipWS (l : List Char) : List Char :=
  l.dropWhile isJsonWS

/-- The character a two-character JSON escape `\e` stands for. -/
def unescSimple (e : Char) : Option Char :=
  if e = '"' then some '"'
  else if e = '\\' then some '\\'
  else if e = '/' then some '/'
  else if e = 'b' then some '\x08'
  else if e = 'f' then some '\x0c'
  else if e = 'n' then some '\n'
  else if e = 'r' then some '\x0d'
  else if e = 't' then some '\t'
  else none

/-- Parse the body of a JSON string literal after its opening quote:
returns the decoded characters and the input after the closing quote.
Unescaped control characters are rejected, as `json.loads` (strict mode)
rejects them. -/
def parseStr : List Char → Option (List Char × List Char)
  | [] => none
  | c :: rest =>
    if c = '"' then some ([], rest)
    else if c = '\\' then
      match rest with
      | 'u' :: d1 :: d2 :: d3 :: d4 :: rest3 =>
        match hexVal d1, hexVal d2, hexVal d3, hexVal d4 with
        | some a, some b, some c3, some d =>
          (fun p : List Char × List Char =>
            (Char.ofNat (((a * 16 + b) * 16 + c3) * 16 + d) :: p.1, p.2)) <$> parseStr rest3
        | _, _, _, _ => none
      | e :: rest2 =>
        match unescSimple e with
        | some u => (fun p : List Char × List Char => (u :: p.1, p.2)) <$> parseStr rest2
        | none => none
      | [] => none
    else if c.toNat < 32 then none
    else (fun p : List Char × List Char => (c :: p.1, p.2)) <$> parseStr rest

/-- Skip whitespace and parse a JSON string literal. -/
def parseJString (l : List Char) : Option (List Char × List Char) :=
  match skipWS l with
  | '"' :: rest => parseStr rest
  | _ => none

/-- Skip whitespace and consume an expected punctuation character. -/
def expectChar (c : Char) (l : List Char) : Option (List Char) :=
  match skipWS l with
  | x :: rest => if x = c then some rest else none
  | _ => none

/-- Parse one `"key": "value"` pair of string literals. -/
def parseField (l : List Char) : Option ((List Char × List Char) × List Char) := do
  let (k, l1) ← parseJString l
  let l2 ← expectChar ':' l1
  let (v, l3) ← parseJString l2
  return ((k, v), l3)

/-- Parse one account object `{"tittel": ..., "beskrivelse": ...}` (either
field order), returning the (tittel, beskrivelse) pair. -/
def parseInner (l : List Char) : Option ((String × String) × List Char) := do
  let l1 ← expectChar '\x7b' l
  let ((k1, v1), l2) ← parseField l1
  let l3 ← expectChar ',' l2
  let ((k2, v2), l4) ← parseField l3
  let l5 ← expectChar '\x7d' l4
  if k1 = "tittel".data ∧ k2 = "beskrivelse".data then
    return ((⟨v1⟩, ⟨v2⟩), l5)
  else if k1 = "beskrivelse".data ∧ k2 = "tittel".data then
    return ((⟨v2⟩, ⟨v1⟩), l5)
  else none

/-- Parse the entries of a nonempty top-level catalog object, up to and
including its closing brace.  The fuel only bounds the recursion depth;
every entry consumes at least one input character, so the input length is
always enough fuel. -/
def parseEntriesF : Nat → List Char → Option (Catalog × List Char)
  | 0, _ => none
  | fuel + 1, l => do
    let (k, l1) ← parseJString l
    let l2 ← expectChar ':' l1
    let ((t, b), l3) ← parseInner l2
    match skipWS l3 with
    | ',' :: l4 => do
      let (rest, l5) ← parseEntriesF fuel l4
      return ((⟨k⟩, t, b) :: rest, l5)
    | '\x7d' :: l4 => return ([(⟨k⟩, t, b)], l4)
    | _ => none

/-- `json.loads` specialized to the artifact's document shape: one
top-level object mapping account ids to objects with string fields
`tittel` and `beskrivelse`; anything else is a decode error.  As in a
Python dict, a repeated id keeps its first position and its last value. -/
def loadsCatalog (s : String) : Option Catalog := do
  let l ← expectChar '\x7b' s.data
  match skipWS l with
  | '\x7d' :: l1 => if (skipWS l1).isEmpty then some [] else none
  | _ => do
    let (cat, l1) ← parseEntriesF (s.data.length + 1) l
    if (skipWS l1).isEmpty then some (pyDict cat) else none

/-! ## The store layer -/

/-- The list comprehension `[parse_konto(str(html)) for html in htmls]`:
parse every page, the first parsing exception propagating. -/
def parseAll : List Doc → Except PyExc (List Konto)
  | [] => .ok []
  | h :: hs =>
    match parse_konto h with
    | .error e => .error e
    | .ok k =>
      match parseAll hs with
      | .error e => .error e
      | .ok t => .ok (k :: t)

/-- `scrape_queries(queries)`: gather all responses, drop the `None`
results for missing pages, parse every remaining page, build the dict
keyed by account id, and serialize it.  Returns the text written to the
artifact file; any raised exception propagates before the file is
touched. -/
def scrape_queries (responses : List HttpResp) : Except PyExc String :=
  match gather responses with
  | .error e => .error e
  | .ok htmls =>
    match parseAll (htmls.filterMap id) with
    | .error e => .error e
    | .ok kontoer =>
      .ok (dumpsCatalog (pyDict (kontoer.map (fun k => (k.id, k.tittel, k.beskrivelse)))))

/-- The state of the artifact file: missing, present with some content, or
present but unreadable (for example because of file permissions). -/
inductive FileState where
  | absent
  | unreadable
  | present : String → FileState
deriving DecidableEq, Repr

/-- `open(ACCOUNTS_FILE, 'r')` followed by `f.read()`: a missing file
raises FileNotFoundError, an unreadable one raises PermissionError. -/
def readArtifact : FileState → Except PyExc String
  | .present c => .ok c
  | .absent => .error .fileNotFound
  | .unreadable => .error .permissionDenied

/-- `scrape_async` viewed as a file-system transition: on success of the
batch the artifact now holds the serialized catalog; a raised exception
propagates and, because every failure happens before the file is opened
for writing, leaves the file untouched. -/
def scrape_queries_run (responses : List HttpResp) (fs : FileState) :
    Except PyExc Unit × FileState :=
  match scrape_queries responses with
  | .ok content => (.ok (), .present content)
  | .error e => (.error e, fs)

/-- What a call to `get_accounts` produces on success: the catalog, the
file state afterwards, and whether any network retrieval was performed. -/
structure StoreResult where
  catalog : Catalog
  fs : FileState
  fetched : Bool
deriving DecidableEq, Repr

/-- `get_accounts()`: read and deserialize the artifact if it can be
opened; only FileNotFoundError is caught, in which case the whole range is
scraped, the artifact written, and the recursive re-read (inlined here:
the file just written is present with the written content) returns the
deserialized catalog.  Any other exception propagates. -/
def get_accounts (fs : FileState) (responses : List HttpResp) :
    Except PyExc StoreResult :=
  match readArtifact fs with
  | .ok content =>
    match loadsCatalog content with
    | some cat => .ok ⟨cat, fs, false⟩
    | none => .error .jsonDecodeError
  | .error .fileNotFound =>
    match scrape_queries responses with
    | .ok content =>
      match loadsCatalog content with
      | some cat => .ok ⟨cat, .present content, true⟩
      | none => .error .jsonDecodeError
    | .error e => .error e
  | .error e => .error e

/-! ## The configured query range -/

/-- The artifact file name. -/
def ACCOUNTS_FILE : String := "lucaregnskap.json"

/-- First account id of the configured range. -/
def START : Nat := 1000

/-- Last account id of the configured range. -/
def END : Nat := 8990

/-- The generated locator list:
`['https://www.lucaregnskap.no/kontobeskrivelser/' + str(i) for i in range(START, END + 1)]`. -/
def QUERIES : List String :=
  (List.range' START (END + 1 - START)).map
    (fun i => "https://www.lucaregnskap.no/kontobeskrivelser/" ++ toString i)

/-- Substring occurrence (Python's `pat in s`), used to state the claims
about what the scraped text contains: `pat` occurs contiguously somewhere
in `s`. -/
def containsSub (pat : List Char) : List Char → Bool
  | [] => pat.isEmpty
  | c :: rest => pat.isPrefixOf (c :: rest) || containsSub pat rest

/-! ## Concrete pages used as witnesses and counterexamples -/

/-- A concrete well-formed account page used to show the two cache-miss
behaviors of `get_accounts` apart. -/
def soupC9 : Doc :=
  [.elem "h1" [] [.text "Konto: 1000"], .elem "h1" [] [.text "T"],
   .elem "div" [("class", "account-description")] [.text "B"]]

/-- A concrete well-formed account page. -/
def soupC2 : Doc :=
  [.elem "h1" [] [.text "Konto: 4000"], .elem "h1" [] [.text "Varekostnad"],
   .elem "div" [("class", "account-description")] [.text "kost"]]

/-- A concrete account page whose description has surrounding whitespace. -/
def soupC8 : Doc :=
  [.elem "h1" [] [.text "Konto: 2000"], .elem "h1" [] [.text "Leverandørgjeld"],
   .elem "div" [("class", "account-description")] [.text "  skyldig\n"]]

/-- A concrete account page whose description is a single link, with a
title attribute, whose visible text starts with a space. -/
def soupC3 : Doc :=
  [.elem "h1" [] [.text "Konto: 1"], .elem "h1" [] [.text "T"],
   .elem "div" [("class", "account-description")]
     [.elem "a" [("title", "y")] [.text " x"]]]

/-- A concrete account page whose description is a single link, without a
title attribute, whose visible text starts with a space. -/
def soupC10 : Doc :=
  [.elem "h1" [] [.text "Konto: 2"], .elem "h1" [] [.text "U"],
   .elem "div" [("class", "account-description")]
     [.elem "a" [("href", "z")] [.text " x"]]]

/-- A concrete account page with a link in the middle of the description,
used for the witnesses of the amended link-flattening claims. -/
def soupLinkMid : Doc :=
  [.elem "h1" [] [.text "Konto: 3"], .elem "h1" [] [.text "V"],
   .elem "div" [("class", "account-description")]
     [.text "se ", .elem "a" [("title", "konto 2000")] [.text "egenkapital"], .text " her"]]

/-- Like `soupLinkMid` but the link carries no title attribute. -/
def soupLinkMidNoTitle : Doc :=
  [.elem "h1" [] [.text "Konto: 5"], .elem "h1" [] [.text "W"],
   .elem "div" [("class", "account-description")]
     [.text "se ", .elem "a" [("href", "z")] [.text "egenkapital"], .text " her"]]

/-! ## Helper lemmas: the fetch layer -/

theorem scrape_of_status_200 {r : HttpResp} (h : r.status = 200) :
    scrape r = .ok (some r.body) := by
  simp [scrape, h]

theorem scrape_of_status_404 {r : HttpResp} (h : r.status = 404) :
    scrape r = .ok none := by
  simp [scrape, h]

theorem scrape_of_bad_status {r : HttpResp} (h200 : r.status ≠ 200) (h404 : r.status ≠ 404) :
    scrape r = .error (.statusCode r.status) := by
  simp [scrape, h200, h404]

/-- A single bad status anywhere in the batch makes the whole gather
raise: no list of partial results is ever produced. -/
theorem gather_error_of_mem {rs : List HttpResp} {r : HttpResp} (hmem : r ∈ rs)
    (h200 : r.status ≠ 200) (h404 : r.status ≠ 404) :
    ∃ e, gather rs = Except.error e := by
  induction rs with
  | nil => cases hmem
  | cons x xs ih =>
    rcases List.mem_cons.mp hmem with rfl | hx
    · exact ⟨PyExc.statusCode r.status, by simp [gather, scrape_of_bad_status h200 h404]⟩
    · obtain ⟨e, he⟩ := ih hx
      cases hsx : scrape x with
      | error e₂ => exact ⟨e₂, by simp [gather, hsx]⟩
      | ok v => exact ⟨e, by simp [gather, hsx, he]⟩

theorem scrape_queries_error_of_gather {responses : List HttpResp} {e : PyExc}
    (h : gather responses = Except.error e) :
    scrape_queries responses = Except.error e := by
  simp [scrape_queries, h]

/-! ## Claim theorems: fetch status handling -/

/-- C1: for a single retrieval, status 200 returns the page content,
status 404 returns None without error, and any other status raises an
exception which aborts the whole gathered batch, so that no partial list
of results is returned. -/
theorem claim_C1 (s200 s404 r : HttpResp) (rs : List HttpResp)
    (h2 : s200.status = 200) (h4 : s404.status = 404)
    (hmem : r ∈ rs) (h200 : r.status ≠ 200) (h404 : r.status ≠ 404) :
    scrape s200 = Except.ok (some s200.body) ∧
    scrape s404 = Except.ok none ∧
    scrape r = Except.error (PyExc.statusCode r.status) ∧
    ∃ e, gather rs = Except.error e :=
  ⟨scrape_of_status_200 h2, scrape_of_status_404 h4,
   scrape_of_bad_status h200 h404, gather_error_of_mem hmem h200 h404⟩

/-- Witness for C1 at concrete responses with statuses 200, 404 and 500. -/
theorem claim_C1_witness :
    (⟨200, [Node.text "page"]⟩ : HttpResp).status = 200 ∧
    (⟨404, []⟩ : HttpResp).status = 404 ∧
    (⟨500, []⟩ : HttpResp) ∈ [(⟨200, [Node.text "page"]⟩ : HttpResp), ⟨500, []⟩] ∧
    (⟨500, []⟩ : HttpResp).status ≠ 200 ∧
    (⟨500, []⟩ : HttpResp).status ≠ 404 ∧
    (scrape ⟨200, [Node.text "page"]⟩ = Except.ok (some [Node.text "page"]) ∧
     scrape ⟨404, []⟩ = Except.ok none ∧
     scrape ⟨500, []⟩ = Except.error (PyExc.statusCode 500) ∧
     ∃ e, gather [⟨200, [Node.text "page"]⟩, ⟨500, []⟩] = Except.error e) :=
  ⟨rfl, rfl, List.mem_cons_of_mem _ (List.mem_cons_self _ _), by decide, by decide,
   claim_C1 ⟨200, [Node.text "page"]⟩ ⟨404, []⟩ ⟨500, []⟩ _
     rfl rfl (List.mem_cons_of_mem _ (List.mem_cons_self _ _)) (by decide) (by decide)⟩

/-- C5: a batch containing any response with a status other than 200 or
404 makes the whole scraping operation fail with a propagated error, and
the artifact file is left exactly as it was (no partial catalog is
written). -/
theorem claim_C5 (responses : List HttpResp) (fs : FileState) (r : HttpResp)
    (hmem : r ∈ responses) (h200 : r.status ≠ 200) (h404 : r.status ≠ 404) :
    (∃ e, (scrape_queries_run responses fs).1 = Except.error e) ∧
    (scrape_queries_run responses fs).2 = fs := by
  obtain ⟨e, he⟩ := gather_error_of_mem hmem h200 h404
  have hq : scrape_queries responses = Except.error e := scrape_queries_error_of_gather he
  exact ⟨⟨e, by simp [scrape_queries_run, hq]⟩, by simp [scrape_queries_run, hq]⟩

/-- Witness for C5: one response with status 500, starting from an absent
artifact. -/
theorem claim_C5_witness :
    (⟨500, []⟩ : HttpResp) ∈ [(⟨500, []⟩ : HttpResp)] ∧
    (⟨500, []⟩ : HttpResp).status ≠ 200 ∧
    (⟨500, []⟩ : HttpResp).status ≠ 404 ∧
    ((∃ e, (scrape_queries_run [⟨500, []⟩] .absent).1 = Except.error e) ∧
     (scrape_queries_run [⟨500, []⟩] .absent).2 = .absent) :=
  ⟨List.mem_cons_self _ _, by decide, by decide,
   claim_C5 [⟨500, []⟩] .absent ⟨500, []⟩ (List.mem_cons_self _ _) (by decide) (by decide)⟩

/-! ## Claim theorems: the locator range -/

/-- C7: the locator list has exactly one address for each integer of the
inclusive range 1000..8990 (7991 addresses), each formed by appending the
decimal integer to the fixed base address. -/
theorem claim_C7 :
    QUERIES.length = 7991 ∧
    QUERIES = (List.range' 1000 7991).map
      (fun i => "https://www.lucaregnskap.no/kontobeskrivelser/" ++ toString i) ∧
    (List.range' 1000 7991).Nodup ∧
    ∀ n : Nat, n ∈ List.range' 1000 7991 ↔ 1000 ≤ n ∧ n ≤ 8990 := by
  refine ⟨?_, rfl, List.nodup_range' _ _, ?_⟩
  · simp [QUERIES, List.length_range', START, END]
  · intro n
    rw [List.mem_range'_1]
    omega

/-! ## Claim theorems: the store layer -/

/-- C4: with the artifact present, `get_accounts` deserializes and returns
it without any network activity, and a second call — against any network
state whatsoever, even one that would fail — returns the identical
records, again without fetching. -/
theorem claim_C4 (content : String) (cat : Catalog)
    (h : loadsCatalog content = some cat) (net net2 : List HttpResp) :
    get_accounts (.present content) net = Except.ok ⟨cat, .present content, false⟩ ∧
    get_accounts (.present content) net2 = Except.ok ⟨cat, .present content, false⟩ :=
  ⟨by simp [get_accounts, readArtifact, h], by simp [get_accounts, readArtifact, h]⟩

/-- Witness for C4: a concrete one-account artifact, read twice, the
second time against a network that only returns status 500. -/
theorem claim_C4_witness :
    loadsCatalog (dumpsCatalog [("1000", "Varelager", "beholdning")]) =
      some [("1000", "Varelager", "beholdning")] ∧
    (get_accounts (.present (dumpsCatalog [("1000", "Varelager", "beholdning")])) [] =
      Except.ok ⟨[("1000", "Varelager", "beholdning")],
        .present (dumpsCatalog [("1000", "Varelager", "beholdning")]), false⟩ ∧
     get_accounts (.present (dumpsCatalog [("1000", "Varelager", "beholdning")])) [⟨500, []⟩] =
      Except.ok ⟨[("1000", "Varelager", "beholdning")],
        .present (dumpsCatalog [("1000", "Varelager", "beholdning")]), false⟩) :=
  ⟨rfl, claim_C4 (dumpsCatalog [("1000", "Varelager", "beholdning")])
    [("1000", "Varelager", "beholdning")] rfl [] [⟨500, []⟩]⟩

/-- Counterexample to C9: with the very same network (one good page), an
unreadable artifact makes `get_accounts` propagate PermissionError —
no scrape happens and no catalog is returned — while an absent artifact
triggers the scrape and returns the catalog.  The two cases are
distinguished, contrary to the claim. -/
theorem claim_C9_counterexample :
    get_accounts .unreadable [⟨200, soupC9⟩] = Except.error PyExc.permissionDenied ∧
    get_accounts .absent [⟨200, soupC9⟩] =
      Except.ok ⟨[("1000", "T", "B")], .present (dumpsCatalog [("1000", "T", "B")]), true⟩ ∧
    get_accounts .absent [⟨200, soupC9⟩] ≠ get_accounts .unreadable [⟨200, soupC9⟩] := by
  refine ⟨rfl, rfl, ?_⟩
  intro hEq
  rw [show get_accounts .absent [⟨200, soupC9⟩] =
      Except.ok ⟨[("1000", "T", "B")], .present (dumpsCatalog [("1000", "T", "B")]), true⟩ from rfl,
    show get_accounts .unreadable [⟨200, soupC9⟩] = Except.error PyExc.permissionDenied from rfl]
    at hEq
  cases hEq

/-- C9 as amended: a read failure other than absence (PermissionError) is
not caught — only FileNotFoundError is — so it propagates to the caller
and no fresh scrape is triggered, whatever the network would answer. -/
theorem claim_C9_amended (net : List HttpResp) :
    get_accounts .unreadable net = Except.error PyExc.permissionDenied := rfl

/-! ## Helper lemmas: str.replace and the extractor -/

/-- A pattern that occurs nowhere in the scanned text is never replaced,
whatever the remaining fuel. -/
theorem pyReplaceAux_of_not_contains {pat repl : List Char} :
    ∀ (fuel : Nat) (s : List Char), containsSub pat s = false →
      pyReplaceAux pat repl fuel s = s := by
  intro fuel
  induction fuel with
  | zero => intro s _; cases s <;> rfl
  | succ f ih =>
    intro s hfree
    cases s with
    | nil => rfl
    | cons c rest =>
      have hfree' : (pat.isPrefixOf (c :: rest) || containsSub pat rest) = false := hfree
      rw [Bool.or_eq_false_iff] at hfree'
      have hcond : ¬(pat ≠ [] ∧ pat.isPrefixOf (c :: rest)) := by
        rintro ⟨-, hp⟩
        rw [hfree'.1] at hp
        cases hp
      rw [pyReplaceAux.eq_3, if_neg hcond, ih rest hfree'.2]

/-- Replacing a nonempty pattern in the text that is exactly the pattern
followed by pattern-free remainder yields the replacement followed by the
remainder. -/
theorem pyReplace_append_of_not_contains {pat s : List Char} (repl : List Char)
    (hne : pat ≠ []) (hfree : containsSub pat s = false) :
    pyReplace pat repl (pat ++ s) = repl ++ s := by
  cases pat with
  | nil => exact absurd rfl hne
  | cons p pr =>
    have hcond : ((p :: pr) ≠ [] ∧ (p :: pr).isPrefixOf (p :: pr ++ s)) := by
      refine ⟨by simp, ?_⟩
      rw [List.isPrefixOf_iff_prefix]
      exact List.prefix_append _ _
    show (if (p :: pr) ≠ [] ∧ (p :: pr).isPrefixOf (p :: pr ++ s) then
        repl ++ pyReplaceAux (p :: pr) repl (pr ++ s).length ((p :: pr ++ s).drop (p :: pr).length)
      else p :: pyReplaceAux (p :: pr) repl (pr ++ s).length (pr ++ s)) = repl ++ s
    rw [if_pos hcond]
    rw [show (p :: pr ++ s) = (p :: pr) ++ s from rfl, List.drop_left]
    rw [pyReplaceAux_of_not_contains _ s hfree]

/-- Stripping the "Konto: " prefix: on a heading of the form
"Konto: " ++ id where the id token itself has no occurrence of
"Konto: ", the replace-all of `parse_konto` returns exactly the id. -/
theorem pyReplaceStr_konto (idTok : String)
    (hfree : containsSub "Konto: ".data idTok.data = false) :
    pyReplaceStr ("Konto: " ++ idTok) "Konto: " "" = idTok := by
  apply String.ext
  show pyReplace "Konto: ".data "".data ("Konto: " ++ idTok).data = idTok.data
  rw [String.data_append, pyReplace_append_of_not_contains _ (by decide) hfree]
  rfl

/-- On a page with at least two h1 headings and a description div,
`parse_konto` succeeds and its three fields are as the code computes
them. -/
theorem parse_konto_of_shape {soup : Doc} {h0 h1 : Node} {rest : List Node} {d : Node}
    (hh : findAllList "h1" soup = h0 :: h1 :: rest)
    (hd : findElemList (fun t a => t = "div" && hasClass a "account-description") soup = some d) :
    parse_konto soup = .ok ⟨pyReplaceStr (nodeText h0) "Konto: " "", nodeText h1,
      pyStrip (nodeText (replaceLinks d))⟩ := by
  simp only [parse_konto, hh, hd]

/-- C2: on every page whose first heading is the literal "Konto: "
followed by an id token (a token containing no occurrence of "Konto: "
itself) and which has a second heading and a description block, the
extractor returns the id with the prefix stripped and the second heading's
exact text as the title. -/
theorem claim_C2 (soup : Doc) (idTok : String) (h0 h1 : Node) (rest : List Node) (d : Node)
    (hh : findAllList "h1" soup = h0 :: h1 :: rest)
    (hid : nodeText h0 = "Konto: " ++ idTok)
    (hfree : containsSub "Konto: ".data idTok.data = false)
    (hd : findElemList (fun t a => t = "div" && hasClass a "account-description") soup = some d) :
    ∃ k, parse_konto soup = Except.ok k ∧ k.id = idTok ∧ k.tittel = nodeText h1 := by
  refine ⟨_, parse_konto_of_shape hh hd, ?_, rfl⟩
  show pyReplaceStr (nodeText h0) "Konto: " "" = idTok
  rw [hid, pyReplaceStr_konto idTok hfree]

/-- Witness for C2 on a concrete page with id 4000. -/
theorem claim_C2_witness :
    findAllList "h1" soupC2 =
      [Node.elem "h1" [] [.text "Konto: 4000"], Node.elem "h1" [] [.text "Varekostnad"]] ∧
    nodeText (Node.elem "h1" [] [.text "Konto: 4000"]) = "Konto: " ++ "4000" ∧
    containsSub "Konto: ".data "4000".data = false ∧
    findElemList (fun t a => t = "div" && hasClass a "account-description") soupC2 =
      some (Node.elem "div" [("class", "account-description")] [.text "kost"]) ∧
    ∃ k, parse_konto soupC2 = Except.ok k ∧ k.id = "4000" ∧
      k.tittel = nodeText (Node.elem "h1" [] [.text "Varekostnad"]) :=
  ⟨rfl, rfl, by decide, rfl,
   claim_C2 soupC2 "4000" (Node.elem "h1" [] [.text "Konto: 4000"])
     (Node.elem "h1" [] [.text "Varekostnad"]) []
     (Node.elem "div" [("class", "account-description")] [.text "kost"])
     rfl rfl (by decide) rfl⟩

/-! ## Helper lemmas: stripping whitespace -/

/-- The first character surviving a dropWhile does not satisfy the
predicate. -/
theorem head?_dropWhile_false {p : Char → Bool} :
    ∀ {l : List Char} {c : Char}, (l.dropWhile p).head? = some c → p c = false := by
  intro l
  induction l with
  | nil => intro c h; simp [List.dropWhile] at h
  | cons x xs ih =>
    intro c h
    rw [List.dropWhile_cons] at h
    by_cases hx : p x
    · rw [if_pos hx] at h
      exact ih h
    · rw [if_neg hx] at h
      obtain rfl : x = c := by simpa using h
      simpa using hx

/-- The last character surviving an rdropWhile does not satisfy the
predicate. -/
theorem getLast?_rdropWhile_false {p : Char → Bool} {l : List Char} {c : Char}
    (h : (l.rdropWhile p).getLast? = some c) : p c = false := by
  unfold List.rdropWhile at h
  rw [List.getLast?_reverse] at h
  exact head?_dropWhile_false h

/-- rdropWhile removes only a suffix, so a nonempty result keeps the head. -/
theorem head?_of_rdropWhile {p : Char → Bool} {l : List Char} {c : Char}
    (h : (l.rdropWhile p).head? = some c) : l.head? = some c := by
  obtain ⟨t, ht⟩ := List.rdropWhile_prefix p l
  rw [← ht, List.head?_append, h]
  rfl

/-- The stripped description never starts with whitespace. -/
theorem pyStrip_head_not_ws (s : String) :
    ((pyStrip s).data.head?.all fun c => !isPyWS c) = true := by
  cases hh : (pyStrip s).data.head? with
  | none => rfl
  | some c =>
    have h1 : (((s.data.dropWhile isPyWS).rdropWhile isPyWS)).head? = some c := hh
    have h2 := head?_of_rdropWhile h1
    have h3 := head?_dropWhile_false h2
    simp [Option.all, h3]

/-- The stripped description never ends with whitespace. -/
theorem pyStrip_last_not_ws (s : String) :
    ((pyStrip s).data.getLast?.all fun c => !isPyWS c) = true := by
  cases hh : (pyStrip s).data.getLast? with
  | none => rfl
  | some c =>
    have h1 : (((s.data.dropWhile isPyWS).rdropWhile isPyWS)).getLast? = some c := hh
    have h3 := getLast?_rdropWhile_false h1
    simp [Option.all, h3]

/-- Whenever `parse_konto` succeeds, the description it returns came out
of `str.strip()`. -/
theorem parse_konto_beskrivelse_strip {soup : Doc} {k : Konto}
    (h : parse_konto soup = Except.ok k) : ∃ s, k.beskrivelse = pyStrip s := by
  unfold parse_konto at h
  split at h
  · cases h
  · cases h
  · split at h
    · cases h
    · obtain rfl := Except.ok.inj h
      exact ⟨_, rfl⟩

/-- C8: whatever the description block contains (leading or trailing
whitespace included), the extracted description neither starts nor ends
with a whitespace character. -/
theorem claim_C8 (soup : Doc) (k : Konto) (h : parse_konto soup = Except.ok k) :
    (k.beskrivelse.data.head?.all fun c => !isPyWS c) = true ∧
    (k.beskrivelse.data.getLast?.all fun c => !isPyWS c) = true := by
  obtain ⟨s, hs⟩ := parse_konto_beskrivelse_strip h
  rw [hs]
  exact ⟨pyStrip_head_not_ws s, pyStrip_last_not_ws s⟩

/-- Witness for C8: a page whose description block has leading and
trailing whitespace; the extracted description has none. -/
theorem claim_C8_witness :
    parse_konto soupC8 = Except.ok ⟨"2000", "Leverandørgjeld", "skyldig"⟩ ∧
    (((⟨"2000", "Leverandørgjeld", "skyldig"⟩ : Konto).beskrivelse.data.head?.all
        fun c => !isPyWS c) = true ∧
     ((⟨"2000", "Leverandørgjeld", "skyldig"⟩ : Konto).beskrivelse.data.getLast?.all
        fun c => !isPyWS c) = true) :=
  ⟨rfl, claim_C8 soupC8 ⟨"2000", "Leverandørgjeld", "skyldig"⟩ rfl⟩

/-! ## Helper lemmas: link flattening -/

theorem replaceLinksList_append (xs ys : List Node) :
    replaceLinksList (xs ++ ys) = replaceLinksList xs ++ replaceLinksList ys := by
  induction xs with
  | nil => rfl
  | cons n ns ih => simp [replaceLinksList, ih]

theorem nodesText_append (xs ys : List Node) :
    nodesText (xs ++ ys) = nodesText xs ++ nodesText ys := by
  induction xs with
  | nil => simp [nodesText]
  | cons n ns ih => simp [nodesText, ih, String.append_assoc]

/-- A pattern occurs in any text listing it between two other pieces. -/
theorem containsSub_append_middle (m x y : List Char) :
    containsSub m (x ++ m ++ y) = true := by
  induction x with
  | nil =>
    cases m with
    | nil =>
      cases y with
      | nil => rfl
      | cons c r => simp [containsSub]
    | cons a as =>
      show containsSub (a :: as) ((a :: as) ++ y) = true
      rw [List.cons_append, containsSub.eq_2]
      have hpre : (a :: as).isPrefixOf (a :: (as ++ y)) = true := by
        rw [List.isPrefixOf_iff_prefix, ← List.cons_append]
        exact List.prefix_append _ _
      rw [hpre, Bool.true_or]
  | cons a as ih =>
    show containsSub m (a :: (as ++ m ++ y)) = true
    rw [containsSub.eq_2, ih, Bool.or_true]

/-- Flattening a description div whose children are some `pre`, a
hyperlink, then some `post`: the rewritten, flattened text is the
flattened pre-text, then the link's synthesized fragment, then the
flattened post-text. -/
theorem nodeText_replaceLinks_div (cls : List (String × String))
    (pre post : List Node) (attrs : List (String × String)) (kids : List Node) :
    nodeText (replaceLinks (Node.elem "div" cls (pre ++ Node.elem "a" attrs kids :: post))) =
      nodesText (replaceLinksList pre) ++
      (nodesText kids ++ " (" ++ pyShowOpt (attrs.lookup "title") ++ ")") ++
      nodesText (replaceLinksList post) := by
  rw [show replaceLinks (Node.elem "div" cls (pre ++ Node.elem "a" attrs kids :: post)) =
      Node.elem "div" cls (replaceLinksList (pre ++ Node.elem "a" attrs kids :: post)) from by
    rw [replaceLinks]
    simp]
  rw [show nodeText (Node.elem "div" cls (replaceLinksList (pre ++ Node.elem "a" attrs kids :: post))) =
      nodesText (replaceLinksList (pre ++ Node.elem "a" attrs kids :: post)) from rfl]
  rw [show (pre ++ Node.elem "a" attrs kids :: post) = pre ++ [Node.elem "a" attrs kids] ++ post from by simp]
  rw [replaceLinksList_append, replaceLinksList_append]
  rw [nodesText_append, nodesText_append]
  rw [show replaceLinksList [Node.elem "a" attrs kids] =
      [Node.text (linkText (Node.elem "a" attrs kids) attrs)] from by
    rw [replaceLinksList, replaceLinksList]
    rw [replaceLinks]
    simp]
  rw [show nodesText [Node.text (linkText (Node.elem "a" attrs kids) attrs)] =
      linkText (Node.elem "a" attrs kids) attrs ++ "" from rfl]
  rw [show linkText (Node.elem "a" attrs kids) attrs =
      nodesText kids ++ " (" ++ pyShowOpt (attrs.lookup "title") ++ ")" from rfl]
  simp [String.append_assoc]

/-- Shared pipeline lemma: on a page with two headings and a description
div holding a hyperlink between `pre` and `post`, the extracted
description is the strip of pre-text, link fragment and post-text. -/
theorem parse_konto_link_flatten {soup : Doc} {h0 h1 : Node} {rest : List Node}
    (cls : List (String × String)) (pre post : List Node)
    (attrs : List (String × String)) (kids : List Node)
    (hh : findAllList "h1" soup = h0 :: h1 :: rest)
    (hd : findElemList (fun t a => t = "div" && hasClass a "account-description") soup =
          some (Node.elem "div" cls (pre ++ Node.elem "a" attrs kids :: post))) :
    parse_konto soup = Except.ok
      ⟨pyReplaceStr (nodeText h0) "Konto: " "", nodeText h1,
       pyStrip (nodesText (replaceLinksList pre) ++
         (nodesText kids ++ " (" ++ pyShowOpt (attrs.lookup "title") ++ ")") ++
         nodesText (replaceLinksList post))⟩ := by
  rw [parse_konto_of_shape hh hd, nodeText_replaceLinks_div]

/-- Counterexample to C3 as stated: a description block consisting of one
link with visible text " x" (leading space) and title "y".  The extracted
description is "x (y)", which does not contain the substring
" x (y)" (that is, text-space-paren-title): the final strip removed the
leading space of the link text. -/
theorem claim_C3_counterexample :
    parse_konto soupC3 = Except.ok ⟨"1", "T", "x (y)"⟩ ∧
    nodeText (Node.elem "a" [("title", "y")] [.text " x"]) = " x" ∧
    containsSub " x (y)".data "x (y)".data = false :=
  ⟨rfl, rfl, by decide⟩

/-- C3 as amended: before the final whitespace strip, the flattened
description contains the fragment T ++ " (" ++ A ++ ")" exactly at the
link's original position — between the flattened text of what precedes
and what follows, with no residual markup — and the extracted description
is that text with surrounding whitespace stripped (so the substring can
lose whitespace only at the very ends of the block). -/
theorem claim_C3_amended (soup : Doc) (h0 h1 : Node) (rest : List Node)
    (cls : List (String × String)) (pre post : List Node)
    (attrs : List (String × String)) (kids : List Node) (A : String)
    (hh : findAllList "h1" soup = h0 :: h1 :: rest)
    (hd : findElemList (fun t a => t = "div" && hasClass a "account-description") soup =
          some (Node.elem "div" cls (pre ++ Node.elem "a" attrs kids :: post)))
    (htitle : attrs.lookup "title" = some A) :
    parse_konto soup = Except.ok
      ⟨pyReplaceStr (nodeText h0) "Konto: " "", nodeText h1,
       pyStrip (nodesText (replaceLinksList pre) ++
         (nodesText kids ++ " (" ++ A ++ ")") ++
         nodesText (replaceLinksList post))⟩ ∧
    containsSub (nodesText kids ++ " (" ++ A ++ ")").data
      (nodesText (replaceLinksList pre) ++ (nodesText kids ++ " (" ++ A ++ ")") ++
       nodesText (replaceLinksList post)).data = true := by
  constructor
  · have hflat := parse_konto_link_flatten cls pre post attrs kids hh hd
    rw [htitle] at hflat
    exact hflat
  · rw [show (nodesText (replaceLinksList pre) ++ (nodesText kids ++ " (" ++ A ++ ")") ++
       nodesText (replaceLinksList post)).data =
       (nodesText (replaceLinksList pre)).data ++ (nodesText kids ++ " (" ++ A ++ ")").data ++
       (nodesText (replaceLinksList post)).data from by simp [String.data_append]]
    exact containsSub_append_middle _ _ _

/-- Witness for the amended C3: a link with a title in the middle of a
description block. -/
theorem claim_C3_witness :
    findAllList "h1" soupLinkMid =
      [Node.elem "h1" [] [.text "Konto: 3"], Node.elem "h1" [] [.text "V"]] ∧
    findElemList (fun t a => t = "div" && hasClass a "account-description") soupLinkMid =
      some (Node.elem "div" [("class", "account-description")]
        ([Node.text "se "] ++
          Node.elem "a" [("title", "konto 2000")] [.text "egenkapital"] :: [Node.text " her"])) ∧
    ([("title", "konto 2000")] : List (String × String)).lookup "title" = some "konto 2000" ∧
    (parse_konto soupLinkMid = Except.ok
      ⟨pyReplaceStr (nodeText (Node.elem "h1" [] [.text "Konto: 3"])) "Konto: " "",
       nodeText (Node.elem "h1" [] [.text "V"]),
       pyStrip (nodesText (replaceLinksList [Node.text "se "]) ++
         (nodesText [Node.text "egenkapital"] ++ " (" ++ "konto 2000" ++ ")") ++
         nodesText (replaceLinksList [Node.text " her"]))⟩ ∧
     containsSub (nodesText [Node.text "egenkapital"] ++ " (" ++ "konto 2000" ++ ")").data
       (nodesText (replaceLinksList [Node.text "se "]) ++
        (nodesText [Node.text "egenkapital"] ++ " (" ++ "konto 2000" ++ ")") ++
        nodesText (replaceLinksList [Node.text " her"])).data = true) :=
  ⟨rfl, rfl, rfl,
   claim_C3_amended soupLinkMid (Node.elem "h1" [] [.text "Konto: 3"])
     (Node.elem "h1" [] [.text "V"]) [] [("class", "account-description")]
     [Node.text "se "] [Node.text " her"] [("title", "konto 2000")]
     [Node.text "egenkapital"] "konto 2000" rfl rfl rfl⟩

/-- Counterexample to C10 as stated: a description block consisting of one
title-less link with visible text " x" (leading space).  The extracted
description is "x (None)", which does not contain the link's visible text
followed by " (None)": the final strip removed the leading space of the
link text. -/
theorem claim_C10_counterexample :
    parse_konto soupC10 = Except.ok ⟨"2", "U", "x (None)"⟩ ∧
    nodeText (Node.elem "a" [("href", "z")] [.text " x"]) = " x" ∧
    containsSub " x (None)".data "x (None)".data = false :=
  ⟨rfl, rfl, by decide⟩

/-- C10 as amended: a link without a title attribute still parses; before
the final whitespace strip the flattened description contains, at the
link's original position, the link's visible text followed by the literal
" (None)" (Python formats the missing attribute as None), and the
extracted description is that text with surrounding whitespace
stripped. -/
theorem claim_C10_amended (soup : Doc) (h0 h1 : Node) (rest : List Node)
    (cls : List (String × String)) (pre post : List Node)
    (attrs : List (String × String)) (kids : List Node)
    (hh : findAllList "h1" soup = h0 :: h1 :: rest)
    (hd : findElemList (fun t a => t = "div" && hasClass a "account-description") soup =
          some (Node.elem "div" cls (pre ++ Node.elem "a" attrs kids :: post)))
    (htitle : attrs.lookup "title" = none) :
    parse_konto soup = Except.ok
      ⟨pyReplaceStr (nodeText h0) "Konto: " "", nodeText h1,
       pyStrip (nodesText (replaceLinksList pre) ++
         (nodesText kids ++ " (" ++ "None" ++ ")") ++
         nodesText (replaceLinksList post))⟩ ∧
    containsSub (nodesText kids ++ " (" ++ "None" ++ ")").data
      (nodesText (replaceLinksList pre) ++ (nodesText kids ++ " (" ++ "None" ++ ")") ++
       nodesText (replaceLinksList post)).data = true := by
  constructor
  · have hflat := parse_konto_link_flatten cls pre post attrs kids hh hd
    rw [htitle] at hflat
    exact hflat
  · rw [show (nodesText (replaceLinksList pre) ++ (nodesText kids ++ " (" ++ "None" ++ ")") ++
       nodesText (replaceLinksList post)).data =
       (nodesText (replaceLinksList pre)).data ++
       (nodesText kids ++ " (" ++ "None" ++ ")").data ++
       (nodesText (replaceLinksList post)).data from by simp [String.data_append]]
    exact containsSub_append_middle _ _ _

/-- Witness for the amended C10: a title-less link in the middle of a
description block. -/
theorem claim_C10_witness :
    findAllList "h1" soupLinkMidNoTitle =
      [Node.elem "h1" [] [.text "Konto: 5"], Node.elem "h1" [] [.text "W"]] ∧
    findElemList (fun t a => t = "div" && hasClass a "account-description") soupLinkMidNoTitle =
      some (Node.elem "div" [("class", "account-description")]
        ([Node.text "se "] ++
          Node.elem "a" [("href", "z")] [.text "egenkapital"] :: [Node.text " her"])) ∧
    ([("href", "z")] : List (String × String)).lookup "title" = none ∧
    (parse_konto soupLinkMidNoTitle = Except.ok
      ⟨pyReplaceStr (nodeText (Node.elem "h1" [] [.text "Konto: 5"])) "Konto: " "",
       nodeText (Node.elem "h1" [] [.text "W"]),
       pyStrip (nodesText (replaceLinksList [Node.text "se "]) ++
         (nodesText [Node.text "egenkapital"] ++ " (" ++ "None" ++ ")") ++
         nodesText (replaceLinksList [Node.text " her"]))⟩ ∧
     containsSub (nodesText [Node.text "egenkapital"] ++ " (" ++ "None" ++ ")").data
       (nodesText (replaceLinksList [Node.text "se "]) ++
        (nodesText [Node.text "egenkapital"] ++ " (" ++ "None" ++ ")") ++
        nodesText (replaceLinksList [Node.text " her"])).data = true) :=
  ⟨rfl, rfl, rfl,
   claim_C10_amended soupLinkMidNoTitle (Node.elem "h1" [] [.text "Konto: 5"])
     (Node.elem "h1" [] [.text "W"]) [] [("class", "account-description")]
     [Node.text "se "] [Node.text " her"] [("href", "z")]
     [Node.text "egenkapital"] rfl rfl rfl⟩

/-! ## Helper lemmas: the JSON artifact round trip -/

theorem hexVal_hexDigitChar {n : Nat} (h : n < 16) : hexVal (hexDigitChar n) = some n := by
  interval_cases n <;> decide

theorem parseStr_escList (s : List Char) : ∀ r, parseStr (escList s ++ '"' :: r) = some (s, r) := by
  induction s with
  | nil => intro r; rw [show escList [] ++ '"' :: r = '"' :: r from rfl, parseStr.eq_def]; rfl
  | cons c cs ih =>
    intro r
    rw [show escList (c :: cs) = escChar c ++ escList cs from rfl, List.append_assoc]
    unfold escChar
    split_ifs with h1 h2 h3 h4 h5 h6 h7 h8
    · subst h1
      rw [show ['\\', '"'] ++ (escList cs ++ '"' :: r) = '\\' :: '"' :: (escList cs ++ '"' :: r) from rfl,
        parseStr.eq_def]
      simp [unescSimple, ih]
    · subst h2
      rw [show ['\\', '\\'] ++ (escList cs ++ '"' :: r) = '\\' :: '\\' :: (escList cs ++ '"' :: r) from rfl,
        parseStr.eq_def]
      simp [unescSimple, ih]
    · subst h3
      rw [show ['\\', 'n'] ++ (escList cs ++ '"' :: r) = '\\' :: 'n' :: (escList cs ++ '"' :: r) from rfl,
        parseStr.eq_def]
      simp [unescSimple, ih]
    · subst h4
      rw [show ['\\', 't'] ++ (escList cs ++ '"' :: r) = '\\' :: 't' :: (escList cs ++ '"' :: r) from rfl,
        parseStr.eq_def]
      simp [unescSimple, ih]
    · subst h5
      rw [show ['\\', 'r'] ++ (escList cs ++ '"' :: r) = '\\' :: 'r' :: (escList cs ++ '"' :: r) from rfl,
        parseStr.eq_def]
      simp [unescSimple, ih]
    · subst h6
      rw [show ['\\', 'b'] ++ (escList cs ++ '"' :: r) = '\\' :: 'b' :: (escList cs ++ '"' :: r) from rfl,
        parseStr.eq_def]
      simp [unescSimple, ih]
    · subst h7
      rw [show ['\\', 'f'] ++ (escList cs ++ '"' :: r) = '\\' :: 'f' :: (escList cs ++ '"' :: r) from rfl,
        parseStr.eq_def]
      simp [unescSimple, ih]
    · have hd : c.toNat / 16 < 16 := by omega
      have hm : c.toNat % 16 < 16 := Nat.mod_lt _ (by omega)
      rw [show ['\\', 'u', '0', '0', hexDigitChar (c.toNat / 16), hexDigitChar (c.toNat % 16)] ++
          (escList cs ++ '"' :: r) =
          '\\' :: 'u' :: '0' :: '0' :: hexDigitChar (c.toNat / 16) :: hexDigitChar (c.toNat % 16) ::
          (escList cs ++ '"' :: r) from rfl, parseStr.eq_def]
      have h0 : hexVal '0' = some 0 := rfl
      simp only [h0, hexVal_hexDigitChar hd, hexVal_hexDigitChar hm, ih]
      have harith : c.toNat / 16 * 16 + c.toNat % 16 = c.toNat := by
        have := Nat.div_add_mod c.toNat 16
        omega
      simp [harith, Char.ofNat_toNat]
    · rw [List.singleton_append, parseStr.eq_def]
      simp [h1, h2, h8, ih]

theorem skipWS_cons_of_ws {c : Char} (h : isJsonWS c = true) (l : List Char) :
    skipWS (c :: l) = skipWS l := by
  simp [skipWS, List.dropWhile_cons, h]

theorem skipWS_cons_of_not {c : Char} (h : isJsonWS c = false) (l : List Char) :
    skipWS (c :: l) = c :: l := by
  simp [skipWS, List.dropWhile_cons, h]

theorem skipWS_sp (l : List Char) : skipWS (' ' :: l) = skipWS l :=
  skipWS_cons_of_ws (by decide) l

theorem skipWS_nl (l : List Char) : skipWS ('\n' :: l) = skipWS l :=
  skipWS_cons_of_ws (by decide) l

theorem skipWS_comma (l : List Char) : skipWS (',' :: l) = ',' :: l :=
  skipWS_cons_of_not (by decide) l

theorem skipWS_rbrace (l : List Char) : skipWS ('\x7d' :: l) = '\x7d' :: l :=
  skipWS_cons_of_not (by decide) l

theorem skipWS_nil : skipWS [] = [] := rfl

theorem parseJString_sp (l : List Char) : parseJString (' ' :: l) = parseJString l := by
  simp only [parseJString, skipWS_sp]

theorem parseJString_nl (l : List Char) : parseJString ('\n' :: l) = parseJString l := by
  simp only [parseJString, skipWS_nl]

theorem parseJString_quote (s : String) (r : List Char) :
    parseJString (jsonQuote s ++ r) = some (s.data, r) := by
  rw [show jsonQuote s ++ r = '"' :: (escList s.data ++ '"' :: r) from by simp [jsonQuote]]
  unfold parseJString
  rw [skipWS_cons_of_not (by decide)]
  exact parseStr_escList _ _

theorem expectChar_sp (c : Char) (l : List Char) : expectChar c (' ' :: l) = expectChar c l := by
  simp only [expectChar, skipWS_sp]

theorem expectChar_nl (c : Char) (l : List Char) : expectChar c ('\n' :: l) = expectChar c l := by
  simp only [expectChar, skipWS_nl]

theorem expectChar_hit {c : Char} (h : isJsonWS c = false) (l : List Char) :
    expectChar c (c :: l) = some l := by
  unfold expectChar
  rw [skipWS_cons_of_not h]
  simp

theorem expectChar_colon (l : List Char) : expectChar ':' (':' :: l) = some l :=
  expectChar_hit (by decide) l

theorem expectChar_comma (l : List Char) : expectChar ',' (',' :: l) = some l :=
  expectChar_hit (by decide) l

theorem expectChar_lbrace (l : List Char) : expectChar '\x7b' ('\x7b' :: l) = some l :=
  expectChar_hit (by decide) l

theorem expectChar_rbrace (l : List Char) : expectChar '\x7d' ('\x7d' :: l) = some l :=
  expectChar_hit (by decide) l

theorem data_sp4 : "    ".data = [' ', ' ', ' ', ' '] := rfl

theorem data_colon_obj : ": \x7b\n        ".data =
    [':', ' ', '\x7b', '\n', ' ', ' ', ' ', ' ', ' ', ' ', ' ', ' '] := rfl

theorem data_colon_sp : ": ".data = [':', ' '] := rfl

theorem data_comma_sp8 : ",\n        ".data =
    [',', '\n', ' ', ' ', ' ', ' ', ' ', ' ', ' ', ' '] := rfl

theorem data_close_obj : "\n    \x7d".data = ['\n', ' ', ' ', ' ', ' ', '\x7d'] := rfl

theorem parseEntriesF_entry (fuel : Nat) (k t b : String) (tail : List Char) :
    parseEntriesF (fuel + 1) ('\n' :: (entryChars (k, t, b) ++ tail)) =
      (match skipWS tail with
       | ',' :: l4 => (parseEntriesF fuel l4).bind (fun p => some ((k, t, b) :: p.1, p.2))
       | '\x7d' :: l4 => some ([(k, t, b)], l4)
       | _ => none) := by
  rw [parseEntriesF.eq_2]
  simp only [entryChars, data_sp4, data_colon_obj, data_colon_sp, data_comma_sp8, data_close_obj,
    List.cons_append, List.nil_append, List.append_assoc,
    parseJString_nl, parseJString_sp, parseJString_quote,
    Option.bind_eq_bind, Option.some_bind, Option.pure_def,
    parseInner, parseField,
    expectChar_nl, expectChar_sp, expectChar_colon, expectChar_comma, expectChar_lbrace,
    expectChar_rbrace, skipWS_nl, skipWS_sp]
  simp only [and_self, if_true, Option.some_bind]

theorem parseEntriesF_dumpEntries (cat : Catalog) : ∀ (fuel : Nat), cat ≠ [] → cat.length ≤ fuel →
    parseEntriesF fuel ('\n' :: dumpEntries cat) = some (cat, []) := by
  induction cat with
  | nil => intro fuel h _; exact absurd rfl h
  | cons e es ih =>
    intro fuel _ hlen
    obtain ⟨k, t, b⟩ := e
    cases fuel with
    | zero => simp at hlen
    | succ f =>
      cases es with
      | nil =>
        rw [show dumpEntries [(k, t, b)] = entryChars (k, t, b) ++ ['\n', '\x7d'] from rfl]
        rw [parseEntriesF_entry]
        rfl
      | cons e2 es2 =>
        rw [show dumpEntries ((k, t, b) :: e2 :: es2) =
            entryChars (k, t, b) ++ (',' :: '\n' :: dumpEntries (e2 :: es2)) from by
          rw [dumpEntries]
          simp]
        rw [parseEntriesF_entry, skipWS_comma]
        have hrec := ih f (by simp) (by simp at hlen ⊢; omega)
        simp only [hrec, Option.some_bind]

theorem one_le_entryChars_length (e : String × String × String) :
    1 ≤ (entryChars e).length := by
  rw [entryChars, data_sp4]
  simp

theorem length_le_dumpEntries_length (cat : Catalog) :
    cat.length ≤ (dumpEntries cat).length := by
  induction cat with
  | nil => simp
  | cons e es ih =>
    cases es with
    | nil =>
      rw [show dumpEntries [e] = entryChars e ++ ['\n', '\x7d'] from rfl]
      have := one_le_entryChars_length e
      simp [List.length_append]
    | cons e2 es2 =>
      rw [show dumpEntries (e :: e2 :: es2) =
          entryChars e ++ (',' :: '\n' :: dumpEntries (e2 :: es2)) from by
        rw [dumpEntries]
        simp]
      have h1 := one_le_entryChars_length e
      simp only [List.length_append, List.length_cons] at ih ⊢
      omega

theorem lookup_eq_none_of_not_mem {α : Type} {l : List (String × α)} {k : String}
    (h : k ∉ l.map Prod.fst) : l.lookup k = none := by
  induction l with
  | nil => rfl
  | cons p ps ih =>
    obtain ⟨k2, v⟩ := p
    simp only [List.map_cons, List.mem_cons] at h
    push_neg at h
    rw [List.lookup]
    rw [show (k == k2) = false from by simpa using h.1]
    exact ih h.2

theorem foldl_pyDictInsert {α : Type} (l : List (String × α)) :
    ∀ acc : List (String × α), (((acc ++ l).map Prod.fst).Nodup) →
      List.foldl (fun d p => pyDictInsert d p.1 p.2) acc l = acc ++ l := by
  induction l with
  | nil => intro acc _; simp
  | cons p ps ih =>
    intro acc h
    obtain ⟨k, v⟩ := p
    have hk : k ∉ acc.map Prod.fst := by
      intro hmem
      rw [List.map_append, List.nodup_append] at h
      exact h.2.2 hmem (by simp)
    rw [List.foldl_cons]
    rw [show pyDictInsert acc k v = acc ++ [(k, v)] from by
      rw [pyDictInsert, lookup_eq_none_of_not_mem hk]
      rfl]
    rw [ih (acc ++ [(k, v)]) (by rw [List.append_assoc]; simpa using h)]
    simp

theorem pyDict_of_nodup {α : Type} (l : List (String × α)) (h : (l.map Prod.fst).Nodup) :
    pyDict l = l := by
  have := foldl_pyDictInsert l [] (by simpa using h)
  simpa [pyDict] using this

theorem skipWS_quote_head (s : String) (r : List Char) :
    skipWS (jsonQuote s ++ r) = '"' :: (escList s.data ++ ('"' :: r)) := by
  rw [show jsonQuote s ++ r = '"' :: (escList s.data ++ ('"' :: r)) from by simp [jsonQuote]]
  rw [skipWS_cons_of_not (by decide)]

theorem loadsCatalog_dumpsCatalog (cat : Catalog) (h : (cat.map Prod.fst).Nodup) :
    loadsCatalog (dumpsCatalog cat) = some cat := by
  cases cat with
  | nil => rfl
  | cons e es =>
    obtain ⟨k, t, b⟩ := e
    have hdata : (dumpsCatalog ((k, t, b) :: es)).data =
        '\x7b' :: '\n' :: dumpEntries ((k, t, b) :: es) := by
      rw [show dumpsCatalog ((k, t, b) :: es) =
          ⟨"\x7b\n".data ++ dumpEntries ((k, t, b) :: es)⟩ from rfl]
      simp
    obtain ⟨tl, htl⟩ : ∃ tl, dumpEntries ((k, t, b) :: es) = entryChars (k, t, b) ++ tl := by
      cases es with
      | nil => exact ⟨['\n', '\x7d'], rfl⟩
      | cons e2 es2 =>
        exact ⟨',' :: '\n' :: dumpEntries (e2 :: es2), by rw [dumpEntries]; simp⟩
    have hX : skipWS ('\n' :: dumpEntries ((k, t, b) :: es)) =
        '"' :: (escList k.data ++ ('"' :: (": \x7b\n        ".data ++ (jsonQuote "tittel" ++
        (": ".data ++ (jsonQuote t ++ (",\n        ".data ++ (jsonQuote "beskrivelse" ++
        (": ".data ++ (jsonQuote b ++ ("\n    \x7d".data ++ tl))))))))))) := by
      rw [htl, skipWS_nl]
      rw [show entryChars (k, t, b) ++ tl = "    ".data ++ (jsonQuote k ++
          (": \x7b\n        ".data ++ (jsonQuote "tittel" ++ (": ".data ++ (jsonQuote t ++
          (",\n        ".data ++ (jsonQuote "beskrivelse" ++ (": ".data ++ (jsonQuote b ++
          ("\n    \x7d".data ++ tl)))))))))) from by
        simp [entryChars, List.append_assoc]]
      rw [data_sp4, List.cons_append, List.cons_append, List.cons_append, List.cons_append,
        List.nil_append]
      rw [skipWS_sp, skipWS_sp, skipWS_sp, skipWS_sp, skipWS_quote_head]
    unfold loadsCatalog
    rw [hdata, expectChar_lbrace]
    simp only [Option.bind_eq_bind, Option.some_bind, hX]
    rw [parseEntriesF_dumpEntries ((k, t, b) :: es) _ (by simp) (by
      have hlen := length_le_dumpEntries_length ((k, t, b) :: es)
      simp only [List.length_cons] at hlen ⊢
      omega)]
    simp only [Option.some_bind]
    rw [show skipWS ([] : List Char) = [] from rfl]
    simp [pyDict_of_nodup _ h]

/-- C6: serializing a catalog to the artifact text and deserializing it
back yields the identical mapping, entry for entry — ids, titles and
descriptions, non-ASCII text included. -/
theorem claim_C6 (cat : Catalog) (h : (cat.map Prod.fst).Nodup) :
    loadsCatalog (dumpsCatalog cat) = some cat :=
  loadsCatalog_dumpsCatalog cat h

/-- Witness for C6 on a two-account catalog with non-ASCII letters, an
escaped quote and a newline in the text. -/
theorem claim_C6_witness :
    (([("1000", "Kjøp", "Grønnsaker på lager"),
       ("2000", "Gjeld", "æøå \"sitat\"\nlinje")] : Catalog).map Prod.fst).Nodup ∧
    loadsCatalog (dumpsCatalog [("1000", "Kjøp", "Grønnsaker på lager"),
       ("2000", "Gjeld", "æøå \"sitat\"\nlinje")]) =
      some [("1000", "Kjøp", "Grønnsaker på lager"),
       ("2000", "Gjeld", "æøå \"sitat\"\nlinje")] :=
  ⟨by decide, claim_C6 _ (by decide)⟩
